import Mathlib

/-!
Shallow embedding of the RX_que pharmacy backend (src/app.py, src/models.py).

The relational state (tables `users`, `patients`, `drugs`, `prescriptions`
and the join table `prescription_drug_association`) is modelled as lists of
rows; SQLite's autoincrement primary keys are modelled by explicit
`nextPatientId` / `nextPrescriptionId` seeds.  `datetime.utcnow` and
`date.today()` are passed in as explicit parameters (`now`, `today`).
The join table is declared in models.py with a composite primary key on
`(prescription_id, drug_id)`; a commit that would insert a duplicate pair
therefore fails, which the embedded commit models by a `Nodup` check.
-/

namespace RxQue

/-- Row of the `users` table (models.py, class User). -/
structure User where
  id : Nat
  username : String
  password_hash : String
  role : String
deriving DecidableEq

/-- Row of the `patients` table (models.py, class Patient). -/
structure Patient where
  id : Nat
  name : String
  file_number : String
deriving DecidableEq

/-- Row of the `drugs` table (models.py, class Drug). -/
structure Drug where
  id : Nat
  name : String
  strength : String
  instructions : String
  warnings : String
deriving DecidableEq

/-- Row of the `prescriptions` table (models.py, class Prescription).
`created_at` is an abstract UTC timestamp. -/
structure Prescription where
  id : Nat
  patient_id : Nat
  doctor_id : Nat
  status : String
  created_at : Nat
deriving DecidableEq

/-- The persistent relational state.  `assoc` is the
`prescription_drug_association` join table in row-insertion order;
each entry is `(prescription_id, drug_id)`. -/
structure DBState where
  users : List User
  patients : List Patient
  drugs : List Drug
  prescriptions : List Prescription
  assoc : List (Nat × Nat)
  nextPatientId : Nat
  nextPrescriptionId : Nat
deriving DecidableEq

/-- Failure results of the embedded operations (app.py error responses). -/
inductive ApiError where
  /-- "Missing required fields: patient_name, patient_file_number, doctor_id, drugs" -/
  | missingFields
  /-- "Drugs must be a non-empty list" / "No valid drugs provided" -/
  | invalidDrugList
  /-- "Invalid or unauthorized doctor ID" (403) -/
  | unauthorizedDoctor
  /-- "Each drug entry must contain a 'drug_id'" -/
  | missingDrugId
  /-- "Drug with ID {drug_id} not found" -/
  | drugNotFound (drug_id : Nat)
  /-- "Prescription not found" (404) -/
  | notFound
  /-- "New status is required" -/
  | missingStatus
  /-- commit raised (500) and the session was rolled back -/
  | persistenceError
deriving DecidableEq

/-- Success payload of `create_prescription` (app.py lines 114-119). -/
structure CreateOk where
  prescription_id : Nat
  status : String
  created_at : Nat
deriving DecidableEq

/-- Drug serialization used by `get_prescription` and
`update_prescription_status` (app.py lines 131-139). -/
structure DrugView where
  id : Nat
  name : String
  strength : String
  instructions : String
  warnings : String
deriving DecidableEq

/-- Patient summary in the `get_prescription` response. -/
structure PatientView where
  id : Nat
  name : String
  file_number : String
deriving DecidableEq

/-- Doctor summary in the `get_prescription` response. -/
structure DoctorView where
  id : Nat
  username : String
deriving DecidableEq

/-- Response of `get_prescription` (app.py lines 141-155).  The `patient`
and `doctor` relationship lookups are `Option`s: `none` models a dangling
foreign key (impossible for states the app itself produces). -/
structure PrescriptionView where
  id : Nat
  patient : Option PatientView
  doctor : Option DoctorView
  status : String
  created_at : Nat
  prescribed_drugs : List DrugView
deriving DecidableEq

/-- Response of `update_prescription_status` (app.py lines 190-200). -/
structure UpdateView where
  id : Nat
  patient_id : Nat
  doctor_id : Nat
  status : String
  created_at : Nat
  prescribed_drugs : List DrugView
deriving DecidableEq

/-- Entry of the `/dashboard/notifications` response (app.py lines 296-301). -/
structure NotificationView where
  id : Nat
  patient_name : Option String
  created_at : Nat
deriving DecidableEq

def drugView (d : Drug) : DrugView :=
  ⟨d.id, d.name, d.strength, d.instructions, d.warnings⟩

/-- The relationship access `prescription.prescribed_drugs`: the drugs
joined through the association table for a given prescription id, in
association-row order (models.py line 55). -/
def prescribedDrugsOf (s : DBState) (prescription_id : Nat) : List Drug :=
  (s.assoc.filter (fun a => a.1 == prescription_id)).filterMap
    (fun a => s.drugs.find? (fun d => d.id == a.2))

/-- The find-or-create patient block of `create_prescription`
(app.py lines 70-81): look up by `file_number`; if absent, insert a new
patient with the supplied name and commit it immediately. -/
def resolvePatient (s : DBState) (patient_name patient_file_number : String) :
    DBState × Patient :=
  match s.patients.find? (fun p => p.file_number == patient_file_number) with
  | some p => (s, p)
  | none =>
    let p : Patient := ⟨s.nextPatientId, patient_name, patient_file_number⟩
    ({ s with patients := s.patients ++ [p], nextPatientId := s.nextPatientId + 1 }, p)

/-- The drug-validation loop of `create_prescription` (app.py lines 84-94):
for each entry, a falsy (`0`) id fails with the missing-`drug_id` message,
an id not in the catalog fails with `drugNotFound` naming it, and the loop
stops at the first failure. -/
def validateDrugs (drugs : List Drug) : List Nat → Except ApiError (List Drug)
  | [] => .ok []
  | i :: rest =>
    if i = 0 then .error .missingDrugId
    else
      match drugs.find? (fun d => d.id == i) with
      | none => .error (.drugNotFound i)
      | some d => (validateDrugs drugs rest).map (fun l => d :: l)

/-- The operation `create_prescription` (app.py lines 48-122).  `drugs_data` is the list
of `drug_id` values of the request body.  Returns the state after the
operation (the separately committed patient survives later failures) and
the result.  The final commit inserts the prescription row and one
association row per validated drug, in input order; it fails — and is
rolled back — when the association table's composite primary key
`(prescription_id, drug_id)` (models.py lines 28-31) would be violated. -/
def create_prescription (s : DBState) (now : Nat)
    (patient_name patient_file_number : String) (doctor_id : Nat)
    (drugs_data : List Nat) : DBState × Except ApiError CreateOk :=
  if patient_name = "" ∨ patient_file_number = "" ∨ doctor_id = 0 ∨ drugs_data = [] then
    (s, .error .missingFields)
  else if drugs_data = [] then
    (s, .error .invalidDrugList)
  else
    match s.users.find? (fun u => u.id == doctor_id && u.role == "doctor") with
    | none => (s, .error .unauthorizedDoctor)
    | some doctor =>
      let resolved := resolvePatient s patient_name patient_file_number
      let s1 := resolved.1
      let patient := resolved.2
      match validateDrugs s1.drugs drugs_data with
      | .error e => (s1, .error e)
      | .ok prescribed_drugs_list =>
        if prescribed_drugs_list = [] then (s1, .error .invalidDrugList)
        else
          let pid := s1.nextPrescriptionId
          let newPres : Prescription := ⟨pid, patient.id, doctor.id, "pending", now⟩
          let newAssoc := prescribed_drugs_list.map (fun d => (pid, d.id))
          if (s1.assoc ++ newAssoc).Nodup then
            ({ s1 with
                prescriptions := s1.prescriptions ++ [newPres],
                assoc := s1.assoc ++ newAssoc,
                nextPrescriptionId := pid + 1 },
             .ok ⟨pid, "pending", now⟩)
          else
            (s1, .error .persistenceError)

/-- The operation `get_prescription` (app.py lines 125-155). -/
def get_prescription (s : DBState) (prescription_id : Nat) :
    Except ApiError PrescriptionView :=
  match s.prescriptions.find? (fun pr => pr.id == prescription_id) with
  | none => .error .notFound
  | some pr =>
    .ok
      { id := pr.id
        patient := (s.patients.find? (fun p => p.id == pr.patient_id)).map
          (fun p => ⟨p.id, p.name, p.file_number⟩)
        doctor := (s.users.find? (fun u => u.id == pr.doctor_id)).map
          (fun u => ⟨u.id, u.username⟩)
        status := pr.status
        created_at := pr.created_at
        prescribed_drugs := (prescribedDrugsOf s pr.id).map drugView }

/-- Overwrite the status field of the row with the given primary key,
leaving any other row unchanged (the single-row UPDATE of app.py line 175). -/
def setStatus (prescription_id : Nat) (new_status : String) (q : Prescription) :
    Prescription :=
  if q.id == prescription_id then { q with status := new_status } else q

/-- The state produced by a successful `update_prescription_status`: the
row with the requested id gets the new status, all else is unchanged. -/
def updatedState (s : DBState) (prescription_id : Nat) (new_status : String) :
    DBState :=
  { s with prescriptions := s.prescriptions.map (setStatus prescription_id new_status) }

/-- The operation `update_prescription_status` (app.py lines 158-203): requires a
non-empty status, 404s on a missing prescription, otherwise overwrites the
status field of that row unconditionally and commits. -/
def update_prescription_status (s : DBState) (prescription_id : Nat)
    (new_status : String) : DBState × Except ApiError UpdateView :=
  if new_status = "" then (s, .error .missingStatus)
  else
    match s.prescriptions.find? (fun pr => pr.id == prescription_id) with
    | none => (s, .error .notFound)
    | some pr =>
      let s1 := updatedState s prescription_id new_status
      (s1, .ok ⟨pr.id, pr.patient_id, pr.doctor_id, new_status, pr.created_at,
        (prescribedDrugsOf s1 pr.id).map drugView⟩)

/-- One label string of `get_prescription_label` (app.py lines 276-284). -/
def labelString (patient_name file_number : String) (d : Drug) (today : String) :
    String :=
  "name of patient: " ++ patient_name ++
  "\nfile number: " ++ file_number ++
  "\ndrug name: " ++ d.name ++
  "\nstrength: " ++ d.strength ++
  "\ninstructions: " ++ d.instructions ++
  "\nwarning: " ++ d.warnings ++
  "\ndate: " ++ today

/-- The operation `get_prescription_label` (app.py lines 263-290).  `today` is the value
of `datetime.date.today().isoformat()` at call time.  The inner `Option` is
`none` only when the patient foreign key dangles (the Python code would
crash there). -/
def get_prescription_label (s : DBState) (today : String) (prescription_id : Nat) :
    Except ApiError (Option (Nat × List String)) :=
  match s.prescriptions.find? (fun pr => pr.id == prescription_id) with
  | none => .error .notFound
  | some pr =>
    .ok ((s.patients.find? (fun p => p.id == pr.patient_id)).map
      (fun p => (prescription_id,
        (prescribedDrugsOf s pr.id).map (fun d => labelString p.name p.file_number d today))))

/-- The `ORDER BY created_at DESC` relation on prescription rows. -/
def createdDesc (a b : Prescription) : Prop := b.created_at ≤ a.created_at

instance : DecidableRel createdDesc := fun a b => Nat.decLe b.created_at a.created_at

instance : IsTotal Prescription createdDesc :=
  ⟨fun a b => Nat.le_total b.created_at a.created_at⟩

instance : IsTrans Prescription createdDesc :=
  ⟨fun _ _ _ h1 h2 => Nat.le_trans h2 h1⟩

/-- The serialization of one pending prescription in the dashboard feed
(app.py lines 296-301); the patient-name relationship lookup is an
`Option`. -/
def notificationView (s : DBState) (pr : Prescription) : NotificationView :=
  ⟨pr.id, (s.patients.find? (fun p => p.id == pr.patient_id)).map Patient.name,
    pr.created_at⟩

/-- The operation `get_dashboard_notifications` (app.py lines 292-302): all prescriptions
whose status is exactly "pending", sorted by `created_at` descending. -/
def get_dashboard_notifications (s : DBState) : List NotificationView :=
  (List.insertionSort createdDesc
    (s.prescriptions.filter (fun pr => pr.status == "pending"))).map
    (notificationView s)

/-- Python-dict assignment `m[k] = v` on an insertion-ordered dictionary:
overwrite in place when the key exists (keys are unique by construction),
append otherwise. -/
def dictSet : List (String × Nat) → String → Nat → List (String × Nat)
  | [], k, v => [(k, v)]
  | e :: m, k, v => if e.1 = k then (k, v) :: m else e :: dictSet m k v

/-- Lookup in the insertion-ordered dictionary. -/
def dictGet : List (String × Nat) → String → Option Nat
  | [], _ => none
  | e :: m, k => if e.1 = k then some e.2 else dictGet m k

/-- The expression `len(drug.prescriptions)`: the number of prescriptions
joined to a drug through the association table (models.py line 42). -/
def drugPrescriptionCount (s : DBState) (d : Drug) : Nat :=
  ((s.assoc.filter (fun a => a.2 == d.id)).filterMap
    (fun a => s.prescriptions.find? (fun pr => pr.id == a.1))).length

/-- The operation `get_drug_prescription_statistics` (app.py lines 304-317):
a dict keyed by drug name, assigned in catalog order. -/
def get_drug_prescription_statistics (s : DBState) : List (String × Nat) :=
  s.drugs.foldl (fun acc d => dictSet acc d.name (drugPrescriptionCount s d)) []

/-- Well-formedness of a persistent state: primary keys are unique and below
the autoincrement seeds, the patients' natural key `file_number` is unique
(models.py line 23), the join table satisfies its composite primary key,
and join rows only reference already-allocated prescription ids. -/
structure WF (s : DBState) : Prop where
  users_nodup : (s.users.map User.id).Nodup
  patients_nodup : (s.patients.map Patient.id).Nodup
  files_nodup : (s.patients.map Patient.file_number).Nodup
  drugs_nodup : (s.drugs.map Drug.id).Nodup
  pres_nodup : (s.prescriptions.map Prescription.id).Nodup
  patients_lt : ∀ p ∈ s.patients, p.id < s.nextPatientId
  pres_lt : ∀ pr ∈ s.prescriptions, pr.id < s.nextPrescriptionId
  assoc_nodup : s.assoc.Nodup
  assoc_lt : ∀ a ∈ s.assoc, a.1 < s.nextPrescriptionId

/-- A concrete base state mirroring the fixture of src/test_app.py: one
doctor, one pharmacist, three drugs, no patients or prescriptions. -/
def sBase : DBState :=
  { users := [⟨1, "testdoc", "h1", "doctor"⟩, ⟨2, "testpharmacist", "h2", "pharmacist"⟩]
    patients := []
    drugs := [⟨1, "Amoxicillin", "250mg", "Take 1 every 8 hours", "Allergic reactions possible"⟩,
              ⟨2, "Panadol", "500mg", "2 tablets every 4-6 hours", "Max 8 tablets a day"⟩,
              ⟨3, "Lisinopril", "10mg", "1 tablet daily", "Monitor blood pressure"⟩]
    prescriptions := []
    assoc := []
    nextPatientId := 1
    nextPrescriptionId := 1 }

/-- State after creating prescription P1 = drugs [1, 2] in `sBase`. -/
def sP1 : DBState := (create_prescription sBase 10 "Jane Smith" "JS001" 1 [1, 2]).1

/-- State after additionally creating prescription P2 = drugs [1] in `sP1`. -/
def sP2 : DBState := (create_prescription sP1 20 "John Doe" "JD001" 1 [1]).1

/-- State after marking prescription 1 "ready" in `sP2`: exactly one
prescription (id 2) is still pending. -/
def sReady : DBState := (update_prescription_status sP2 1 "ready").1

end RxQue

deriving instance DecidableEq for Except

namespace RxQue

/-! ### Generic list helpers -/

theorem find?_append_none {α} {p : α → Bool} {l1 : List α} (l2 : List α)
    (h : l1.find? p = none) : (l1 ++ l2).find? p = l2.find? p := by
  rw [List.find?_append, h, Option.none_or]

theorem find?_key_eq {α β} [BEq β] [LawfulBEq β] (key : α → β) {l : List α}
    (hn : (l.map key).Nodup) {x : α} (hx : x ∈ l) :
    l.find? (fun y => key y == key x) = some x := by
  induction l with
  | nil => cases hx
  | cons y ys ih =>
    rw [List.map_cons, List.nodup_cons] at hn
    rcases List.mem_cons.mp hx with rfl | hmem
    · exact List.find?_cons_of_pos _ (beq_self_eq_true _)
    · have hne : ¬((fun z => key z == key x) y = true) := fun hb =>
        hn.1 (eq_of_beq hb ▸ List.mem_map_of_mem key hmem)
      have hcons : List.find? (fun z => key z == key x) (y :: ys) =
          List.find? (fun z => key z == key x) ys :=
        List.find?_cons_of_neg ys hne
      rw [hcons]
      exact ih hn.2 hmem

theorem key_eq_imp_eq {α β} (key : α → β) {l : List α}
    (hn : (l.map key).Nodup) {x y : α} (hx : x ∈ l) (hy : y ∈ l)
    (h : key x = key y) : x = y :=
  List.inj_on_of_nodup_map hn hx hy h

theorem filterMap_eq_self {α} {g : α → Option α} {l : List α}
    (h : ∀ x ∈ l, g x = some x) : l.filterMap g = l := by
  induction l with
  | nil => rfl
  | cons x xs ih =>
    rw [List.filterMap_cons, h x (List.mem_cons_self x xs),
      ih (fun y hy => h y (List.mem_cons_of_mem x hy))]

theorem nodup_fst_of_nodup_const_snd {l : List (Nat × Nat)} {c : Nat}
    (hn : l.Nodup) (hc : ∀ a ∈ l, a.2 = c) : (l.map Prod.fst).Nodup := by
  induction l with
  | nil => simp
  | cons a as ih =>
    rw [List.nodup_cons] at hn
    rw [List.map_cons, List.nodup_cons]
    refine ⟨fun hmem => ?_, ih hn.2 (fun b hb => hc b (List.mem_cons_of_mem a hb))⟩
    rcases List.mem_map.mp hmem with ⟨b, hb, hba⟩
    have : b = a := by
      have h2 : b.2 = a.2 := by
        rw [hc b (List.mem_cons_of_mem a hb), hc a (List.mem_cons_self a as)]
      exact Prod.ext hba h2
    exact hn.1 (this ▸ hb)

/-! ### Lemmas about the find-or-create patient block -/

theorem resolvePatient_users (s : DBState) (pname f : String) :
    (resolvePatient s pname f).1.users = s.users := by
  unfold resolvePatient
  cases s.patients.find? (fun p => p.file_number == f) <;> rfl

theorem resolvePatient_drugs (s : DBState) (pname f : String) :
    (resolvePatient s pname f).1.drugs = s.drugs := by
  unfold resolvePatient
  cases s.patients.find? (fun p => p.file_number == f) <;> rfl

theorem resolvePatient_prescriptions (s : DBState) (pname f : String) :
    (resolvePatient s pname f).1.prescriptions = s.prescriptions := by
  unfold resolvePatient
  cases s.patients.find? (fun p => p.file_number == f) <;> rfl

theorem resolvePatient_assoc (s : DBState) (pname f : String) :
    (resolvePatient s pname f).1.assoc = s.assoc := by
  unfold resolvePatient
  cases s.patients.find? (fun p => p.file_number == f) <;> rfl

theorem resolvePatient_nextPrescriptionId (s : DBState) (pname f : String) :
    (resolvePatient s pname f).1.nextPrescriptionId = s.nextPrescriptionId := by
  unfold resolvePatient
  cases s.patients.find? (fun p => p.file_number == f) <;> rfl

theorem resolvePatient_of_found (s : DBState) (pname f : String) {p : Patient}
    (h : s.patients.find? (fun q => q.file_number == f) = some p) :
    resolvePatient s pname f = (s, p) := by
  unfold resolvePatient
  rw [h]

theorem resolvePatient_of_new (s : DBState) (pname f : String)
    (h : s.patients.find? (fun q => q.file_number == f) = none) :
    resolvePatient s pname f =
      ({ s with patients := s.patients ++ [⟨s.nextPatientId, pname, f⟩],
                nextPatientId := s.nextPatientId + 1 },
       ⟨s.nextPatientId, pname, f⟩) := by
  unfold resolvePatient
  rw [h]

theorem resolvePatient_file_number (s : DBState) (pname f : String) :
    (resolvePatient s pname f).2.file_number = f := by
  cases h : s.patients.find? (fun p => p.file_number == f) with
  | none => rw [resolvePatient_of_new s pname f h]
  | some p =>
    rw [resolvePatient_of_found s pname f h]
    have hb := List.find?_some h
    exact eq_of_beq hb

theorem resolvePatient_mem (s : DBState) (pname f : String) :
    (resolvePatient s pname f).2 ∈ (resolvePatient s pname f).1.patients := by
  unfold resolvePatient
  cases h : s.patients.find? (fun p => p.file_number == f) with
  | none => exact List.mem_append_right _ (List.mem_singleton.mpr rfl)
  | some p => exact List.mem_of_find?_eq_some h

theorem resolvePatient_find_id (s : DBState) (pname f : String) (hwf : WF s) :
    (resolvePatient s pname f).1.patients.find?
      (fun p => p.id == (resolvePatient s pname f).2.id) =
      some (resolvePatient s pname f).2 := by
  cases h : s.patients.find? (fun q => q.file_number == f) with
  | some p =>
    rw [resolvePatient_of_found s pname f h]
    exact find?_key_eq Patient.id hwf.patients_nodup (List.mem_of_find?_eq_some h)
  | none =>
    rw [resolvePatient_of_new s pname f h]
    have hnone : s.patients.find? (fun p => p.id == s.nextPatientId) = none := by
      rw [List.find?_eq_none]
      intro p hp hbeq
      exact absurd (eq_of_beq hbeq) (Nat.ne_of_lt (hwf.patients_lt p hp))
    simpa using find?_append_none [(⟨s.nextPatientId, pname, f⟩ : Patient)] hnone

/-! ### Lemmas about the drug-validation loop -/

theorem validateDrugs_ok {drugs : List Drug} :
    ∀ {ids : List Nat} {dl : List Drug}, validateDrugs drugs ids = .ok dl →
      dl.map Drug.id = ids ∧
      ∀ d ∈ dl, drugs.find? (fun x => x.id == d.id) = some d := by
  intro ids
  induction ids with
  | nil =>
    intro dl h
    cases h
    exact ⟨rfl, by intro d hd; cases hd⟩
  | cons i rest ih =>
    intro dl h
    unfold validateDrugs at h
    by_cases hi : i = 0
    · rw [if_pos hi] at h; cases h
    · rw [if_neg hi] at h
      cases hfind : drugs.find? (fun d => d.id == i) with
      | none => rw [hfind] at h; cases h
      | some d =>
        rw [hfind] at h
        cases hrest : validateDrugs drugs rest with
        | error e => rw [hrest] at h; cases h
        | ok tl =>
          rw [hrest] at h
          cases h
          have hb := List.find?_some hfind
          have hid : d.id = i := eq_of_beq hb
          obtain ⟨hmap, hall⟩ := ih hrest
          refine ⟨by rw [List.map_cons, hmap, hid], ?_⟩
          intro x hx
          rcases List.mem_cons.mp hx with rfl | hmem
          · rw [hid]; exact hfind
          · exact hall x hmem

theorem validateDrugs_ok_of_all {drugs : List Drug} :
    ∀ {ids : List Nat},
      (∀ i ∈ ids, i ≠ 0 ∧ ∃ d, drugs.find? (fun x => x.id == i) = some d) →
      ∃ dl, validateDrugs drugs ids = .ok dl := by
  intro ids
  induction ids with
  | nil => intro _; exact ⟨[], rfl⟩
  | cons i rest ih =>
    intro h
    obtain ⟨hi, d, hd⟩ := h i (List.mem_cons_self i rest)
    obtain ⟨tl, htl⟩ := ih (fun j hj => h j (List.mem_cons_of_mem i hj))
    refine ⟨d :: tl, ?_⟩
    unfold validateDrugs
    rw [if_neg hi, hd, htl]
    rfl

theorem validateDrugs_first_missing {drugs : List Drug} :
    ∀ {ids : List Nat}, (∀ i ∈ ids, i ≠ 0) →
      (∃ i ∈ ids, drugs.find? (fun x => x.id == i) = none) →
      ∃ pre m post, ids = pre ++ m :: post ∧
        (∀ j ∈ pre, ∃ d, drugs.find? (fun x => x.id == j) = some d) ∧
        drugs.find? (fun x => x.id == m) = none ∧
        validateDrugs drugs ids = .error (.drugNotFound m) := by
  intro ids
  induction ids with
  | nil => intro _ h; obtain ⟨i, hi, _⟩ := h; cases hi
  | cons i rest ih =>
    intro hpos hmiss
    have hi0 : i ≠ 0 := hpos i (List.mem_cons_self i rest)
    cases hfind : drugs.find? (fun d => d.id == i) with
    | none =>
      refine ⟨[], i, rest, rfl, ?_, hfind, ?_⟩
      · intro j hj
        exact absurd hj (List.not_mem_nil j)
      · unfold validateDrugs
        rw [if_neg hi0, hfind]
    | some d =>
      have hmiss2 : ∃ j ∈ rest, drugs.find? (fun x => x.id == j) = none := by
        obtain ⟨j, hj, hjn⟩ := hmiss
        rcases List.mem_cons.mp hj with rfl | hmem
        · rw [hfind] at hjn; cases hjn
        · exact ⟨j, hmem, hjn⟩
      obtain ⟨pre, m, post, heq, hpre, hm, hval⟩ :=
        ih (fun j hj => hpos j (List.mem_cons_of_mem i hj)) hmiss2
      refine ⟨i :: pre, m, post, by rw [heq]; rfl, ?_, hm, ?_⟩
      · intro j hj
        rcases List.mem_cons.mp hj with rfl | hmem
        · exact ⟨d, hfind⟩
        · exact hpre j hmem
      · unfold validateDrugs
        rw [if_neg hi0, hfind, hval]
        rfl

/-! ### Branch characterizations of `create_prescription` -/

theorem create_of_missing (s : DBState) (now : Nat) (pname f : String)
    (did : Nat) (ids : List Nat)
    (hbad : pname = "" ∨ f = "" ∨ did = 0 ∨ ids = []) :
    create_prescription s now pname f did ids = (s, .error .missingFields) := by
  unfold create_prescription
  rw [if_pos hbad]

theorem create_of_no_doctor (s : DBState) (now : Nat) (pname f : String)
    (did : Nat) (ids : List Nat)
    (hchecks : ¬(pname = "" ∨ f = "" ∨ did = 0 ∨ ids = []))
    (hdoc : s.users.find? (fun u => u.id == did && u.role == "doctor") = none) :
    create_prescription s now pname f did ids = (s, .error .unauthorizedDoctor) := by
  have hids : ids ≠ [] := fun h => hchecks (Or.inr (Or.inr (Or.inr h)))
  unfold create_prescription
  rw [if_neg hchecks, if_neg hids, hdoc]

theorem create_of_drug_error (s : DBState) (now : Nat) (pname f : String)
    (did : Nat) (ids : List Nat) {doctor : User} {e : ApiError}
    (hchecks : ¬(pname = "" ∨ f = "" ∨ did = 0 ∨ ids = []))
    (hdoc : s.users.find? (fun u => u.id == did && u.role == "doctor") = some doctor)
    (hval : validateDrugs s.drugs ids = .error e) :
    create_prescription s now pname f did ids =
      ((resolvePatient s pname f).1, .error e) := by
  have hids : ids ≠ [] := fun h => hchecks (Or.inr (Or.inr (Or.inr h)))
  unfold create_prescription
  rw [if_neg hchecks, if_neg hids, hdoc]
  have hd : (resolvePatient s pname f).1.drugs = s.drugs :=
    resolvePatient_drugs s pname f
  simp only [hd, hval]

theorem create_of_commit_ok (s : DBState) (now : Nat) (pname f : String)
    (did : Nat) (ids : List Nat) {doctor : User} {dl : List Drug}
    (hchecks : ¬(pname = "" ∨ f = "" ∨ did = 0 ∨ ids = []))
    (hdoc : s.users.find? (fun u => u.id == did && u.role == "doctor") = some doctor)
    (hval : validateDrugs s.drugs ids = .ok dl)
    (hnodup : (s.assoc ++ dl.map (fun d => (s.nextPrescriptionId, d.id))).Nodup) :
    create_prescription s now pname f did ids =
      ({ (resolvePatient s pname f).1 with
          prescriptions := s.prescriptions ++
            [⟨s.nextPrescriptionId, (resolvePatient s pname f).2.id, doctor.id,
              "pending", now⟩],
          assoc := s.assoc ++ dl.map (fun d => (s.nextPrescriptionId, d.id)),
          nextPrescriptionId := s.nextPrescriptionId + 1 },
       .ok ⟨s.nextPrescriptionId, "pending", now⟩) := by
  have hids : ids ≠ [] := fun h => hchecks (Or.inr (Or.inr (Or.inr h)))
  have hdl : dl ≠ [] := by
    intro h
    exact hids (by simpa [h] using (validateDrugs_ok hval).1.symm)
  unfold create_prescription
  rw [if_neg hchecks, if_neg hids, hdoc]
  have hd : (resolvePatient s pname f).1.drugs = s.drugs :=
    resolvePatient_drugs s pname f
  have ha : (resolvePatient s pname f).1.assoc = s.assoc :=
    resolvePatient_assoc s pname f
  have hn : (resolvePatient s pname f).1.nextPrescriptionId = s.nextPrescriptionId :=
    resolvePatient_nextPrescriptionId s pname f
  have hp : (resolvePatient s pname f).1.prescriptions = s.prescriptions :=
    resolvePatient_prescriptions s pname f
  simp only [hd, hval, if_neg hdl, ha, hn, hp, if_pos hnodup]

theorem create_of_commit_fail (s : DBState) (now : Nat) (pname f : String)
    (did : Nat) (ids : List Nat) {doctor : User} {dl : List Drug}
    (hchecks : ¬(pname = "" ∨ f = "" ∨ did = 0 ∨ ids = []))
    (hdoc : s.users.find? (fun u => u.id == did && u.role == "doctor") = some doctor)
    (hval : validateDrugs s.drugs ids = .ok dl)
    (hnotnodup : ¬(s.assoc ++ dl.map (fun d => (s.nextPrescriptionId, d.id))).Nodup) :
    create_prescription s now pname f did ids =
      ((resolvePatient s pname f).1, .error .persistenceError) := by
  have hids : ids ≠ [] := fun h => hchecks (Or.inr (Or.inr (Or.inr h)))
  have hdl : dl ≠ [] := by
    intro h
    exact hids (by simpa [h] using (validateDrugs_ok hval).1.symm)
  unfold create_prescription
  rw [if_neg hchecks, if_neg hids, hdoc]
  have hd : (resolvePatient s pname f).1.drugs = s.drugs :=
    resolvePatient_drugs s pname f
  have ha : (resolvePatient s pname f).1.assoc = s.assoc :=
    resolvePatient_assoc s pname f
  have hn : (resolvePatient s pname f).1.nextPrescriptionId = s.nextPrescriptionId :=
    resolvePatient_nextPrescriptionId s pname f
  simp only [hd, hval, if_neg hdl, ha, hn, if_neg hnotnodup]

theorem create_ok_inv {s : DBState} {now : Nat} {pname f : String}
    {did : Nat} {ids : List Nat} {ok : CreateOk}
    (h : (create_prescription s now pname f did ids).2 = .ok ok) :
    ∃ doctor dl,
      s.users.find? (fun u => u.id == did && u.role == "doctor") = some doctor ∧
      validateDrugs s.drugs ids = .ok dl ∧
      (s.assoc ++ dl.map (fun d => (s.nextPrescriptionId, d.id))).Nodup ∧
      ok = ⟨s.nextPrescriptionId, "pending", now⟩ ∧
      create_prescription s now pname f did ids =
        ({ (resolvePatient s pname f).1 with
            prescriptions := s.prescriptions ++
              [⟨s.nextPrescriptionId, (resolvePatient s pname f).2.id, doctor.id,
                "pending", now⟩],
            assoc := s.assoc ++ dl.map (fun d => (s.nextPrescriptionId, d.id)),
            nextPrescriptionId := s.nextPrescriptionId + 1 },
         .ok ⟨s.nextPrescriptionId, "pending", now⟩) := by
  by_cases hchecks : pname = "" ∨ f = "" ∨ did = 0 ∨ ids = []
  · rw [create_of_missing s now pname f did ids hchecks] at h
    cases h
  · cases hdoc : s.users.find? (fun u => u.id == did && u.role == "doctor") with
    | none =>
      rw [create_of_no_doctor s now pname f did ids hchecks hdoc] at h
      cases h
    | some doctor =>
      cases hval : validateDrugs s.drugs ids with
      | error e =>
        rw [create_of_drug_error s now pname f did ids hchecks hdoc hval] at h
        cases h
      | ok dl =>
        by_cases hnodup : (s.assoc ++ dl.map (fun d => (s.nextPrescriptionId, d.id))).Nodup
        · have heq := create_of_commit_ok s now pname f did ids hchecks hdoc hval hnodup
          rw [heq] at h
          cases h
          exact ⟨doctor, dl, rfl, rfl, hnodup, rfl, heq⟩
        · rw [create_of_commit_fail s now pname f did ids hchecks hdoc hval hnodup] at h
          cases h

theorem create_patients (s : DBState) (now : Nat) (pname f : String)
    (did : Nat) (ids : List Nat) {doctor : User}
    (hchecks : ¬(pname = "" ∨ f = "" ∨ did = 0 ∨ ids = []))
    (hdoc : s.users.find? (fun u => u.id == did && u.role == "doctor") = some doctor) :
    (create_prescription s now pname f did ids).1.patients =
      (resolvePatient s pname f).1.patients := by
  cases hval : validateDrugs s.drugs ids with
  | error e => rw [create_of_drug_error s now pname f did ids hchecks hdoc hval]
  | ok dl =>
    by_cases hnodup : (s.assoc ++ dl.map (fun d => (s.nextPrescriptionId, d.id))).Nodup
    · rw [create_of_commit_ok s now pname f did ids hchecks hdoc hval hnodup]
    · rw [create_of_commit_fail s now pname f did ids hchecks hdoc hval hnodup]

theorem create_users (s : DBState) (now : Nat) (pname f : String)
    (did : Nat) (ids : List Nat) {doctor : User}
    (hchecks : ¬(pname = "" ∨ f = "" ∨ did = 0 ∨ ids = []))
    (hdoc : s.users.find? (fun u => u.id == did && u.role == "doctor") = some doctor) :
    (create_prescription s now pname f did ids).1.users = s.users := by
  cases hval : validateDrugs s.drugs ids with
  | error e =>
    rw [create_of_drug_error s now pname f did ids hchecks hdoc hval]
    exact resolvePatient_users s pname f
  | ok dl =>
    by_cases hnodup : (s.assoc ++ dl.map (fun d => (s.nextPrescriptionId, d.id))).Nodup
    · rw [create_of_commit_ok s now pname f did ids hchecks hdoc hval hnodup]
      exact resolvePatient_users s pname f
    · rw [create_of_commit_fail s now pname f did ids hchecks hdoc hval hnodup]
      exact resolvePatient_users s pname f

theorem create_new_prescriptions (s : DBState) (now : Nat) (pname f : String)
    (did : Nat) (ids : List Nat) {doctor : User}
    (hchecks : ¬(pname = "" ∨ f = "" ∨ did = 0 ∨ ids = []))
    (hdoc : s.users.find? (fun u => u.id == did && u.role == "doctor") = some doctor) :
    ∀ pr ∈ (create_prescription s now pname f did ids).1.prescriptions,
      pr ∈ s.prescriptions ∨ pr.patient_id = (resolvePatient s pname f).2.id := by
  intro pr hpr
  cases hval : validateDrugs s.drugs ids with
  | error e =>
    rw [create_of_drug_error s now pname f did ids hchecks hdoc hval,
      resolvePatient_prescriptions s pname f] at hpr
    exact Or.inl hpr
  | ok dl =>
    by_cases hnodup : (s.assoc ++ dl.map (fun d => (s.nextPrescriptionId, d.id))).Nodup
    · rw [create_of_commit_ok s now pname f did ids hchecks hdoc hval hnodup] at hpr
      rcases List.mem_append.mp hpr with hmem | hmem
      · exact Or.inl hmem
      · exact Or.inr (by rw [List.mem_singleton.mp hmem])
    · rw [create_of_commit_fail s now pname f did ids hchecks hdoc hval hnodup,
        resolvePatient_prescriptions s pname f] at hpr
      exact Or.inl hpr

theorem filter_fst_append_eq {old new : List (Nat × Nat)} {pid : Nat}
    (hold : ∀ a ∈ old, a.1 ≠ pid) (hnew : ∀ a ∈ new, a.1 = pid) :
    (old ++ new).filter (fun a => a.1 == pid) = new := by
  rw [List.filter_append]
  have h1 : old.filter (fun a => a.1 == pid) = [] :=
    List.filter_eq_nil_iff.mpr (fun a ha hb => hold a ha (eq_of_beq hb))
  have h2 : new.filter (fun a => a.1 == pid) = new :=
    List.filter_eq_self.mpr (fun a ha => beq_iff_eq.mpr (hnew a ha))
  rw [h1, h2, List.nil_append]

theorem wf_sBase : WF sBase := by
  constructor <;> decide

/-! ### Claim theorems -/

/-- C4: doctor-resolution failure is atomic.  For every `create_prescription`
call whose doctor id does not resolve to an existing user with role
"doctor", the operation fails with `unauthorizedDoctor` and the persistent
state is returned completely unchanged — no prescription, no association,
and no patient is persisted. -/
theorem claim4_unauthorized_doctor_atomic (s : DBState) (now : Nat)
    (pname f : String) (did : Nat) (ids : List Nat)
    (hpn : pname ≠ "") (hf : f ≠ "") (hdid : did ≠ 0) (hids : ids ≠ [])
    (hdoc : ∀ u ∈ s.users, ¬(u.id = did ∧ u.role = "doctor")) :
    create_prescription s now pname f did ids = (s, .error .unauthorizedDoctor) := by
  have hchecks : ¬(pname = "" ∨ f = "" ∨ did = 0 ∨ ids = []) := by
    simp [hpn, hf, hdid, hids]
  have hnone : s.users.find? (fun u => u.id == did && u.role == "doctor") = none := by
    rw [List.find?_eq_none]
    intro u hu hb
    rw [Bool.and_eq_true] at hb
    exact hdoc u hu ⟨eq_of_beq hb.1, eq_of_beq hb.2⟩
  exact create_of_no_doctor s now pname f did ids hchecks hnone

/-- Witness for C4: in `sBase`, user id 2 exists but is a pharmacist, so
creation fails with `unauthorizedDoctor` and the state is untouched. -/
theorem claim4_witness :
    create_prescription sBase 10 "Jane" "JS001" 2 [1] =
      (sBase, .error .unauthorizedDoctor) :=
  claim4_unauthorized_doctor_atomic sBase 10 "Jane" "JS001" 2 [1]
    (by decide) (by decide) (by decide) (by decide) (by decide)

/-- C3: drug validation short-circuits and names the offending id.  If the
drug id sequence contains an id with no catalog entry, creation fails with
`drugNotFound` carrying the FIRST such id (everything before it resolved,
everything after it is not consulted), and neither a prescription row nor
any association row is persisted. -/
theorem claim3_drug_validation_short_circuit (s : DBState) (now : Nat)
    (pname f : String) (did : Nat) (ids : List Nat) {doctor : User}
    (hpn : pname ≠ "") (hf : f ≠ "") (hdid : did ≠ 0)
    (hdoc : s.users.find? (fun u => u.id == did && u.role == "doctor") = some doctor)
    (hpos : ∀ i ∈ ids, i ≠ 0)
    (hmiss : ∃ i ∈ ids, s.drugs.find? (fun d => d.id == i) = none) :
    ∃ pre m post, ids = pre ++ m :: post ∧
      (∀ j ∈ pre, ∃ d, s.drugs.find? (fun x => x.id == j) = some d) ∧
      s.drugs.find? (fun d => d.id == m) = none ∧
      (create_prescription s now pname f did ids).2 = .error (.drugNotFound m) ∧
      (create_prescription s now pname f did ids).1.prescriptions =
        s.prescriptions ∧
      (create_prescription s now pname f did ids).1.assoc = s.assoc := by
  have hids : ids ≠ [] := by
    rintro rfl
    obtain ⟨i, hi, _⟩ := hmiss
    cases hi
  have hchecks : ¬(pname = "" ∨ f = "" ∨ did = 0 ∨ ids = []) := by
    simp [hpn, hf, hdid, hids]
  obtain ⟨pre, m, post, heq, hpre, hm, hval⟩ := validateDrugs_first_missing hpos hmiss
  have hcr := create_of_drug_error s now pname f did ids hchecks hdoc hval
  refine ⟨pre, m, post, heq, hpre, hm, ?_, ?_, ?_⟩
  · rw [hcr]
  · rw [hcr]
    exact resolvePatient_prescriptions s pname f
  · rw [hcr]
    exact resolvePatient_assoc s pname f

/-- Witness for C3: in `sBase`, ids [1, 999, 998] fail with
`drugNotFound 999` — id 1 is valid, 999 is the first missing id. -/
theorem claim3_witness :
    ∃ pre m post, ([1, 999, 998] : List Nat) = pre ++ m :: post ∧
      (∀ j ∈ pre, ∃ d, sBase.drugs.find? (fun x => x.id == j) = some d) ∧
      sBase.drugs.find? (fun d => d.id == m) = none ∧
      (create_prescription sBase 10 "Jane" "JS001" 1 [1, 999, 998]).2 =
        .error (.drugNotFound m) ∧
      (create_prescription sBase 10 "Jane" "JS001" 1 [1, 999, 998]).1.prescriptions =
        sBase.prescriptions ∧
      (create_prescription sBase 10 "Jane" "JS001" 1 [1, 999, 998]).1.assoc =
        sBase.assoc :=
  claim3_drug_validation_short_circuit sBase 10 "Jane" "JS001" 1 [1, 999, 998]
    (by decide) (by decide) (by decide) rfl (by decide)
    ⟨999, by decide, by decide⟩

/-- C10: when creation creates a new patient (unseen file number) and then
fails drug validation with `drugNotFound`, the new patient remains
persisted (it was committed in a separate transaction before drug
validation), while no prescription and no association is persisted. -/
theorem claim10_orphan_patient_persists (s : DBState) (now : Nat)
    (pname f : String) (did : Nat) (ids : List Nat) {doctor : User}
    (hpn : pname ≠ "") (hf : f ≠ "") (hdid : did ≠ 0)
    (hdoc : s.users.find? (fun u => u.id == did && u.role == "doctor") = some doctor)
    (hnew : s.patients.find? (fun p => p.file_number == f) = none)
    (hpos : ∀ i ∈ ids, i ≠ 0)
    (hmiss : ∃ i ∈ ids, s.drugs.find? (fun d => d.id == i) = none) :
    ∃ m, (create_prescription s now pname f did ids).2 =
        .error (.drugNotFound m) ∧
      (create_prescription s now pname f did ids).1.patients =
        s.patients ++ [⟨s.nextPatientId, pname, f⟩] ∧
      (create_prescription s now pname f did ids).1.prescriptions =
        s.prescriptions ∧
      (create_prescription s now pname f did ids).1.assoc = s.assoc := by
  have hids : ids ≠ [] := by
    rintro rfl
    obtain ⟨i, hi, _⟩ := hmiss
    cases hi
  have hchecks : ¬(pname = "" ∨ f = "" ∨ did = 0 ∨ ids = []) := by
    simp [hpn, hf, hdid, hids]
  obtain ⟨pre, m, post, heq, hpre, hm, hval⟩ := validateDrugs_first_missing hpos hmiss
  have hcr := create_of_drug_error s now pname f did ids hchecks hdoc hval
  refine ⟨m, ?_, ?_, ?_, ?_⟩
  · rw [hcr]
  · rw [hcr, resolvePatient_of_new s pname f hnew]
  · rw [hcr]
    exact resolvePatient_prescriptions s pname f
  · rw [hcr]
    exact resolvePatient_assoc s pname f

/-- Witness for C10: creating for unseen file number "TP002" with a missing
drug id 999 leaves the new patient behind and nothing else. -/
theorem claim10_witness :
    ∃ m, (create_prescription sBase 10 "Test Patient" "TP002" 1 [999]).2 =
        .error (.drugNotFound m) ∧
      (create_prescription sBase 10 "Test Patient" "TP002" 1 [999]).1.patients =
        sBase.patients ++ [⟨sBase.nextPatientId, "Test Patient", "TP002"⟩] ∧
      (create_prescription sBase 10 "Test Patient" "TP002" 1 [999]).1.prescriptions =
        sBase.prescriptions ∧
      (create_prescription sBase 10 "Test Patient" "TP002" 1 [999]).1.assoc =
        sBase.assoc :=
  claim10_orphan_patient_persists sBase 10 "Test Patient" "TP002" 1 [999]
    (by decide) (by decide) (by decide) rfl (by decide) (by decide)
    ⟨999, by decide, by decide⟩

/-- C2: idempotent patient resolution with frozen name.  The first
creation referencing an unseen file number creates a patient with the
supplied name; a later creation with the same file number (even with a
different supplied name) creates no new patient, leaves the stored name
unchanged, and any prescription it persists references the same patient
identifier. -/
theorem claim2_patient_resolution_idempotent (s : DBState) (now now2 : Nat)
    (pname pname2 f : String) (did did2 : Nat) (ids ids2 : List Nat)
    {doctor doctor2 : User}
    (hpn : pname ≠ "") (hf : f ≠ "") (hdid : did ≠ 0) (hids : ids ≠ [])
    (hpn2 : pname2 ≠ "") (hdid2 : did2 ≠ 0) (hids2 : ids2 ≠ [])
    (hdoc : s.users.find? (fun u => u.id == did && u.role == "doctor") = some doctor)
    (hnew : s.patients.find? (fun p => p.file_number == f) = none)
    (hdoc2 : (create_prescription s now pname f did ids).1.users.find?
        (fun u => u.id == did2 && u.role == "doctor") = some doctor2) :
    (create_prescription s now pname f did ids).1.patients.find?
        (fun p => p.file_number == f) = some ⟨s.nextPatientId, pname, f⟩ ∧
    (create_prescription (create_prescription s now pname f did ids).1
        now2 pname2 f did2 ids2).1.patients =
      (create_prescription s now pname f did ids).1.patients ∧
    ∀ pr ∈ (create_prescription (create_prescription s now pname f did ids).1
        now2 pname2 f did2 ids2).1.prescriptions,
      pr ∉ (create_prescription s now pname f did ids).1.prescriptions →
        pr.patient_id = s.nextPatientId := by
  have hchecks : ¬(pname = "" ∨ f = "" ∨ did = 0 ∨ ids = []) := by
    simp [hpn, hf, hdid, hids]
  have hchecks2 : ¬(pname2 = "" ∨ f = "" ∨ did2 = 0 ∨ ids2 = []) := by
    simp [hpn2, hf, hdid2, hids2]
  have hpat1 : (create_prescription s now pname f did ids).1.patients =
      s.patients ++ [⟨s.nextPatientId, pname, f⟩] := by
    rw [create_patients s now pname f did ids hchecks hdoc,
      resolvePatient_of_new s pname f hnew]
  have hfind1 : (create_prescription s now pname f did ids).1.patients.find?
      (fun p => p.file_number == f) = some ⟨s.nextPatientId, pname, f⟩ := by
    rw [hpat1, find?_append_none _ hnew]
    exact List.find?_cons_of_pos _ (beq_self_eq_true f)
  have hres2 : resolvePatient (create_prescription s now pname f did ids).1 pname2 f =
      ((create_prescription s now pname f did ids).1,
        ⟨s.nextPatientId, pname, f⟩) :=
    resolvePatient_of_found _ pname2 f hfind1
  refine ⟨hfind1, ?_, ?_⟩
  · rw [create_patients _ now2 pname2 f did2 ids2 hchecks2 hdoc2, hres2]
  · intro pr hpr hnotmem
    rcases create_new_prescriptions _ now2 pname2 f did2 ids2 hchecks2 hdoc2
        pr hpr with hmem | hpid
    · exact absurd hmem hnotmem
    · rw [hpid, hres2]

/-- Witness for C2: after creating for file number "JS001" as "Jane Smith",
a second creation supplying the different name "Janet Smyth" reuses
patient id 1 and the stored name stays "Jane Smith". -/
theorem claim2_witness :
    (create_prescription sBase 10 "Jane Smith" "JS001" 1 [1, 2]).1.patients.find?
        (fun p => p.file_number == "JS001") = some ⟨1, "Jane Smith", "JS001"⟩ ∧
    (create_prescription (create_prescription sBase 10 "Jane Smith" "JS001" 1 [1, 2]).1
        20 "Janet Smyth" "JS001" 1 [3]).1.patients =
      (create_prescription sBase 10 "Jane Smith" "JS001" 1 [1, 2]).1.patients ∧
    ∀ pr ∈ (create_prescription (create_prescription sBase 10 "Jane Smith" "JS001" 1 [1, 2]).1
        20 "Janet Smyth" "JS001" 1 [3]).1.prescriptions,
      pr ∉ (create_prescription sBase 10 "Jane Smith" "JS001" 1 [1, 2]).1.prescriptions →
        pr.patient_id = 1 :=
  claim2_patient_resolution_idempotent sBase 10 20 "Jane Smith" "Janet Smyth" "JS001"
    1 1 [1, 2] [3] (by decide) (by decide) (by decide) (by decide) (by decide)
    (by decide) (by decide) rfl (by decide) rfl

/-- C1: round-trip of creation and retrieval.  For every successful
`create_prescription` call, `get_prescription` applied to the returned
prescription id yields a view with status "pending", the creation
timestamp, a patient carrying the supplied file number, the resolved
doctor's id and username (the user found for the supplied doctor id with
role "doctor"), and exactly the supplied drug id list, in order. -/
theorem claim1_create_get_roundtrip (s : DBState) (now : Nat)
    (pname f : String) (did : Nat) (ids : List Nat) (ok : CreateOk)
    (hwf : WF s)
    (hok : (create_prescription s now pname f did ids).2 = .ok ok) :
    ∃ doctor pv,
      s.users.find? (fun u => u.id == did && u.role == "doctor") = some doctor ∧
      doctor.id = did ∧ doctor.role = "doctor" ∧
      get_prescription (create_prescription s now pname f did ids).1
        ok.prescription_id = .ok pv ∧
      pv.status = "pending" ∧
      pv.created_at = now ∧
      (∃ pat, pv.patient = some pat ∧ pat.file_number = f) ∧
      pv.doctor = some ⟨doctor.id, doctor.username⟩ ∧
      pv.prescribed_drugs.map DrugView.id = ids := by
  obtain ⟨doctor, dl, hdoc, hval, hnodup, hokeq, hcr⟩ := create_ok_inv hok
  obtain ⟨hmap, hfinds⟩ := validateDrugs_ok hval
  subst hokeq
  have hrole : doctor.id = did ∧ doctor.role = "doctor" := by
    have hb := List.find?_some hdoc
    rw [Bool.and_eq_true] at hb
    exact ⟨eq_of_beq hb.1, eq_of_beq hb.2⟩
  have hnone : s.prescriptions.find?
      (fun pr => pr.id == s.nextPrescriptionId) = none := by
    rw [List.find?_eq_none]
    intro pr hpr hb
    exact absurd (eq_of_beq hb) (Nat.ne_of_lt (hwf.pres_lt pr hpr))
  have hfindp : (create_prescription s now pname f did ids).1.prescriptions.find?
      (fun pr => pr.id == s.nextPrescriptionId) =
      some ⟨s.nextPrescriptionId, (resolvePatient s pname f).2.id, doctor.id,
        "pending", now⟩ := by
    rw [hcr]
    have step : (s.prescriptions ++
        [(⟨s.nextPrescriptionId, (resolvePatient s pname f).2.id, doctor.id,
          "pending", now⟩ : Prescription)]).find?
        (fun pr => pr.id == s.nextPrescriptionId) =
        some ⟨s.nextPrescriptionId, (resolvePatient s pname f).2.id, doctor.id,
          "pending", now⟩ := by
      rw [find?_append_none _ hnone]
      exact List.find?_cons_of_pos _ (beq_self_eq_true s.nextPrescriptionId)
    exact step
  have hfindpat : (create_prescription s now pname f did ids).1.patients.find?
      (fun p => p.id == (resolvePatient s pname f).2.id) =
      some (resolvePatient s pname f).2 := by
    rw [hcr]
    exact resolvePatient_find_id s pname f hwf
  have husers : (create_prescription s now pname f did ids).1.users = s.users := by
    rw [hcr]
    exact resolvePatient_users s pname f
  have hfindu : s.users.find? (fun u => u.id == doctor.id) = some doctor :=
    find?_key_eq User.id hwf.users_nodup (List.mem_of_find?_eq_some hdoc)
  have hdrugs : (create_prescription s now pname f did ids).1.drugs = s.drugs := by
    rw [hcr]
    exact resolvePatient_drugs s pname f
  have hpd : prescribedDrugsOf (create_prescription s now pname f did ids).1
      s.nextPrescriptionId = dl := by
    unfold prescribedDrugsOf
    rw [hdrugs]
    have hassoc : (create_prescription s now pname f did ids).1.assoc =
        s.assoc ++ dl.map (fun d => (s.nextPrescriptionId, d.id)) := by
      rw [hcr]
    rw [hassoc]
    have hfilter : (s.assoc ++ dl.map (fun d => (s.nextPrescriptionId, d.id))).filter
        (fun a => a.1 == s.nextPrescriptionId) =
        dl.map (fun d => (s.nextPrescriptionId, d.id)) := by
      refine filter_fst_append_eq (fun a ha => Nat.ne_of_lt (hwf.assoc_lt a ha)) ?_
      intro a ha
      obtain ⟨d, _, rfl⟩ := List.mem_map.mp ha
      rfl
    rw [hfilter, List.filterMap_map]
    exact filterMap_eq_self (fun d hd => hfinds d hd)
  refine ⟨doctor, ⟨s.nextPrescriptionId,
      some ⟨(resolvePatient s pname f).2.id, (resolvePatient s pname f).2.name,
        (resolvePatient s pname f).2.file_number⟩,
      some ⟨doctor.id, doctor.username⟩, "pending", now, dl.map drugView⟩,
    hdoc, hrole.1, hrole.2, ?_, rfl, rfl,
    ⟨_, rfl, resolvePatient_file_number s pname f⟩, rfl, ?_⟩
  · show get_prescription (create_prescription s now pname f did ids).1
      s.nextPrescriptionId = _
    unfold get_prescription
    rw [hfindp]
    show Except.ok _ = _
    rw [hfindpat, husers, hfindu, hpd]
    rfl
  · show (dl.map drugView).map DrugView.id = ids
    rw [List.map_map]
    exact hmap

/-- Witness for C1: the concrete creation in `sBase` with drugs [1, 2]
round-trips through `get_prescription`. -/
theorem claim1_witness :
    (create_prescription sBase 10 "Jane Smith" "JS001" 1 [1, 2]).2 =
      .ok ⟨1, "pending", 10⟩ ∧
    ∃ doctor pv,
      sBase.users.find? (fun u => u.id == 1 && u.role == "doctor") = some doctor ∧
      doctor.id = 1 ∧ doctor.role = "doctor" ∧
      get_prescription (create_prescription sBase 10 "Jane Smith" "JS001" 1 [1, 2]).1
        (1 : Nat) = .ok pv ∧
      pv.status = "pending" ∧
      pv.created_at = 10 ∧
      (∃ pat, pv.patient = some pat ∧ pat.file_number = "JS001") ∧
      pv.doctor = some ⟨doctor.id, doctor.username⟩ ∧
      pv.prescribed_drugs.map DrugView.id = [1, 2] :=
  ⟨by decide,
    claim1_create_get_roundtrip sBase 10 "Jane Smith" "JS001" 1 [1, 2]
      ⟨1, "pending", 10⟩ wf_sBase (by decide)⟩

/-- C5: `update_prescription_status` overwrites only the status field.
For an absent id it fails with `notFound`.  For an existing prescription
and any non-empty new status it succeeds with no transition validation:
the stored row keeps its id, patient, doctor and creation timestamp and
only the status changes; patients, users, drugs and the association table
are untouched, every other prescription row is preserved, and setting the
current status back is a no-op on the state. -/
theorem claim5_update_status_frame (s : DBState) (pid : Nat)
    (new_status : String) (hst : new_status ≠ "") :
    (s.prescriptions.find? (fun pr => pr.id == pid) = none →
      update_prescription_status s pid new_status = (s, .error .notFound)) ∧
    ∀ pr, s.prescriptions.find? (fun q => q.id == pid) = some pr →
      (s.prescriptions.map Prescription.id).Nodup →
      (∃ v, (update_prescription_status s pid new_status).2 = .ok v ∧
        v.status = new_status ∧ v.id = pr.id ∧ v.patient_id = pr.patient_id ∧
        v.doctor_id = pr.doctor_id ∧ v.created_at = pr.created_at) ∧
      (update_prescription_status s pid new_status).1.users = s.users ∧
      (update_prescription_status s pid new_status).1.patients = s.patients ∧
      (update_prescription_status s pid new_status).1.drugs = s.drugs ∧
      (update_prescription_status s pid new_status).1.assoc = s.assoc ∧
      (update_prescription_status s pid new_status).1.prescriptions.find?
          (fun q => q.id == pid) =
        some ⟨pr.id, pr.patient_id, pr.doctor_id, new_status, pr.created_at⟩ ∧
      (∀ q ∈ s.prescriptions, q.id ≠ pid →
        q ∈ (update_prescription_status s pid new_status).1.prescriptions) ∧
      (pr.status = new_status →
        (update_prescription_status s pid new_status).1 = s) := by
  constructor
  · intro hnone
    unfold update_prescription_status
    rw [if_neg hst, hnone]
  · intro pr hfind hnodup
    have hprid : pr.id = pid := by
      have hb := List.find?_some hfind
      exact eq_of_beq hb
    have hprmem : pr ∈ s.prescriptions := List.mem_of_find?_eq_some hfind
    have hupd : update_prescription_status s pid new_status =
        (updatedState s pid new_status,
         .ok ⟨pr.id, pr.patient_id, pr.doctor_id, new_status, pr.created_at,
           (prescribedDrugsOf (updatedState s pid new_status) pr.id).map drugView⟩) := by
      unfold update_prescription_status updatedState
      rw [if_neg hst, hfind]
    have hcomp : ((fun q : Prescription => q.id == pid) ∘ setStatus pid new_status) =
        (fun q : Prescription => q.id == pid) := by
      funext q
      by_cases h : (q.id == pid) = true
      · simp only [Function.comp, setStatus]
        rw [if_pos h]
      · simp only [Function.comp, setStatus]
        rw [if_neg h]
    have hfind2 : (s.prescriptions.map (setStatus pid new_status)).find?
        (fun q => q.id == pid) =
        some ⟨pr.id, pr.patient_id, pr.doctor_id, new_status, pr.created_at⟩ := by
      rw [List.find?_map, hcomp, hfind]
      have hb : (pr.id == pid) = true := beq_iff_eq.mpr hprid
      show some (setStatus pid new_status pr) = _
      unfold setStatus
      rw [if_pos hb]
    refine ⟨⟨_, by rw [hupd], rfl, rfl, rfl, rfl, rfl⟩, ?_, ?_, ?_, ?_, ?_, ?_, ?_⟩
    · rw [hupd]
      rfl
    · rw [hupd]
      rfl
    · rw [hupd]
      rfl
    · rw [hupd]
      rfl
    · rw [hupd]
      exact hfind2
    · intro q hq hne
      rw [hupd]
      refine List.mem_map.mpr ⟨q, hq, ?_⟩
      unfold setStatus
      rw [if_neg]
      intro hb
      exact hne (eq_of_beq hb)
    · intro hsame
      rw [hupd]
      have hmapid : s.prescriptions.map (setStatus pid new_status) =
          s.prescriptions := by
        have hcong : ∀ q ∈ s.prescriptions, setStatus pid new_status q = id q := by
          intro q hq
          unfold setStatus
          by_cases h : (q.id == pid) = true
          · have hq_pr : q = pr :=
              key_eq_imp_eq Prescription.id hnodup hq hprmem
                (by rw [eq_of_beq h, hprid])
            rw [if_pos h, hq_pr]
            show ({ pr with status := new_status } : Prescription) = pr
            rw [← hsame]
          · rw [if_neg h]
            rfl
        rw [List.map_congr_left hcong, List.map_id]
      show updatedState s pid new_status = s
      unfold updatedState
      rw [hmapid]

/-- Witness for C5: updating prescription 1 in `sP2` to "ready" keeps all
other state, and re-setting "pending" on prescription 2 is a no-op. -/
theorem claim5_witness :
    (update_prescription_status sP2 999 "ready" = (sP2, .error .notFound)) ∧
    (∃ v, (update_prescription_status sP2 1 "ready").2 = .ok v ∧
      v.status = "ready" ∧ v.id = 1) ∧
    (update_prescription_status sP2 1 "ready").1.assoc = sP2.assoc ∧
    (update_prescription_status sP2 2 "pending").1 = sP2 := by
  have h999 := (claim5_update_status_frame sP2 999 "ready" (by decide)).1 (by decide)
  have h1 := (claim5_update_status_frame sP2 1 "ready" (by decide)).2
    ⟨1, 1, 1, "pending", 10⟩ (by decide) (by decide)
  have h2 := (claim5_update_status_frame sP2 2 "pending" (by decide)).2
    ⟨2, 2, 1, "pending", 20⟩ (by decide) (by decide)
  obtain ⟨⟨v, hv, hvs, hvid, _⟩, _, _, _, hassoc, _, _, _⟩ := h1
  obtain ⟨_, _, _, _, _, _, _, hidem⟩ := h2
  exact ⟨h999, ⟨v, hv, hvs, hvid⟩, hassoc, hidem (by decide)⟩


/-- C7: `get_dashboard_notifications` returns exactly the prescriptions
whose status is the string "pending" — a permutation of their
serializations — ordered by creation timestamp descending, and every entry
exposes the id, the patient name and the creation timestamp of a pending
prescription; every pending prescription's serialization appears. -/
theorem claim7_pending_notifications (s : DBState) :
    List.Perm (get_dashboard_notifications s)
      ((s.prescriptions.filter (fun pr => pr.status == "pending")).map
        (notificationView s)) ∧
    (get_dashboard_notifications s).Pairwise
      (fun a b => b.created_at ≤ a.created_at) ∧
    (∀ e ∈ get_dashboard_notifications s, ∃ pr ∈ s.prescriptions,
      pr.status = "pending" ∧ e.id = pr.id ∧ e.created_at = pr.created_at ∧
      e.patient_name = (s.patients.find? (fun p => p.id == pr.patient_id)).map
        Patient.name) ∧
    (∀ pr ∈ s.prescriptions, pr.status = "pending" →
      notificationView s pr ∈ get_dashboard_notifications s) := by
  refine ⟨?_, ?_, ?_, ?_⟩
  · exact (List.perm_insertionSort createdDesc _).map (notificationView s)
  · have hsorted := List.sorted_insertionSort createdDesc
      (s.prescriptions.filter (fun pr => pr.status == "pending"))
    exact List.Pairwise.map (notificationView s) (fun a b h => h) hsorted
  · intro e he
    obtain ⟨pr, hpr, rfl⟩ := List.mem_map.mp he
    have hmem : pr ∈ s.prescriptions.filter (fun pr2 => pr2.status == "pending") :=
      (List.mem_insertionSort createdDesc).mp hpr
    obtain ⟨hmem2, hstat⟩ := List.mem_filter.mp hmem
    exact ⟨pr, hmem2, eq_of_beq hstat, rfl, rfl, rfl⟩
  · intro pr hpr hstat
    refine List.mem_map.mpr ⟨pr, ?_, rfl⟩
    refine (List.mem_insertionSort createdDesc).mpr ?_
    exact List.mem_filter.mpr ⟨hpr, beq_iff_eq.mpr hstat⟩

/-- Witness for C7: in `sReady` (prescription 1 marked "ready",
prescription 2 still pending), prescription 2's entry is listed and the
feed is sorted by timestamp descending. -/
theorem claim7_witness :
    notificationView sReady ⟨2, 2, 1, "pending", 20⟩ ∈
      get_dashboard_notifications sReady ∧
    (get_dashboard_notifications sReady).Pairwise
      (fun a b => b.created_at ≤ a.created_at) :=
  ⟨(claim7_pending_notifications sReady).2.2.2 ⟨2, 2, 1, "pending", 20⟩
      (by decide) rfl,
    (claim7_pending_notifications sReady).2.1⟩

/-- C9: `get_prescription_label` fails with `notFound` for an absent id;
for an existing prescription (with its patient row present) it returns one
label per associated drug, in the persisted association order, each label
listing the patient's name and file number, the drug's name, strength,
instructions and warnings, and the current date passed in at call time
(not the prescription's creation timestamp). -/
theorem claim9_labels (s : DBState) (today : String) (pid : Nat) :
    (s.prescriptions.find? (fun pr => pr.id == pid) = none →
      get_prescription_label s today pid = .error .notFound) ∧
    ∀ pr, s.prescriptions.find? (fun q => q.id == pid) = some pr →
      ∀ patient, s.patients.find? (fun p => p.id == pr.patient_id) = some patient →
        get_prescription_label s today pid =
          .ok (some (pid, (prescribedDrugsOf s pr.id).map (fun d =>
            "name of patient: " ++ patient.name ++
            "\nfile number: " ++ patient.file_number ++
            "\ndrug name: " ++ d.name ++
            "\nstrength: " ++ d.strength ++
            "\ninstructions: " ++ d.instructions ++
            "\nwarning: " ++ d.warnings ++
            "\ndate: " ++ today))) := by
  constructor
  · intro hnone
    unfold get_prescription_label
    rw [hnone]
  · intro pr hfind patient hpat
    have hres : get_prescription_label s today pid =
        Except.ok ((s.patients.find? (fun p => p.id == pr.patient_id)).map
          (fun p => (pid, (prescribedDrugsOf s pr.id).map
            (fun d => labelString p.name p.file_number d today)))) := by
      unfold get_prescription_label
      rw [hfind]
    rw [hres, hpat]
    rfl

/-- Witness for C9: labels for prescription 1 of `sP1` on a concrete date. -/
theorem claim9_witness :
    get_prescription_label sP1 "2026-10-12" 1 =
      .ok (some (1, (prescribedDrugsOf sP1 1).map (fun d =>
        "name of patient: " ++ "Jane Smith" ++
        "\nfile number: " ++ "JS001" ++
        "\ndrug name: " ++ d.name ++
        "\nstrength: " ++ d.strength ++
        "\ninstructions: " ++ d.instructions ++
        "\nwarning: " ++ d.warnings ++
        "\ndate: " ++ "2026-10-12"))) :=
  (claim9_labels sP1 "2026-10-12" 1).2 ⟨1, 1, 1, "pending", 10⟩ (by decide)
    ⟨1, "Jane Smith", "JS001"⟩ (by decide)

/-- Counterexample for C8 as stated: in `sBase` a request listing drug id 1
twice does NOT succeed — the commit violates the association table's
composite primary key, the operation returns a persistence error, and no
prescription row and no association row is persisted. -/
theorem claim8_counterexample :
    (create_prescription sBase 10 "Jane" "JS001" 1 [1, 1]).2 =
      .error .persistenceError ∧
    (create_prescription sBase 10 "Jane" "JS001" 1 [1, 1]).1.prescriptions = [] ∧
    (create_prescription sBase 10 "Jane" "JS001" 1 [1, 1]).1.assoc = [] :=
  ⟨by decide, by decide, by decide⟩

/-- C8 (amended): the route code itself enforces no duplicate-drug check
and appends duplicates positionally, but the association table's composite
primary key (prescription_id, drug_id) rejects the duplicate row at
commit: a request in which the same existing drug id appears more than
once fails with a persistence error, persisting no prescription and no
association (a patient created on the way does persist). -/
theorem claim8_duplicate_drug_rejected (s : DBState) (now : Nat)
    (pname f : String) (did : Nat) (ids : List Nat) {doctor : User}
    (hpn : pname ≠ "") (hf : f ≠ "") (hdid : did ≠ 0)
    (hdoc : s.users.find? (fun u => u.id == did && u.role == "doctor") = some doctor)
    (hall : ∀ i ∈ ids, i ≠ 0 ∧ (s.drugs.find? (fun x => x.id == i)).isSome)
    (hdup : ¬ids.Nodup) :
    (create_prescription s now pname f did ids).2 = .error .persistenceError ∧
    (create_prescription s now pname f did ids).1.prescriptions =
      s.prescriptions ∧
    (create_prescription s now pname f did ids).1.assoc = s.assoc := by
  have hids : ids ≠ [] := by
    rintro rfl
    exact hdup List.nodup_nil
  have hchecks : ¬(pname = "" ∨ f = "" ∨ did = 0 ∨ ids = []) := by
    simp [hpn, hf, hdid, hids]
  obtain ⟨dl, hval⟩ := validateDrugs_ok_of_all
    (fun i hi => ⟨(hall i hi).1, Option.isSome_iff_exists.mp (hall i hi).2⟩)
  obtain ⟨hmap, _⟩ := validateDrugs_ok hval
  have hnot : ¬(s.assoc ++ dl.map (fun d => (s.nextPrescriptionId, d.id))).Nodup := by
    intro hnd
    have h2 : (dl.map (fun d => (s.nextPrescriptionId, d.id))).Nodup :=
      hnd.of_append_right
    have h3 : ((dl.map Drug.id).map
        (fun i => (s.nextPrescriptionId, i))).Nodup := by
      rw [List.map_map]
      exact h2
    have h4 : (dl.map Drug.id).Nodup :=
      List.Nodup.of_map (fun i => (s.nextPrescriptionId, i)) h3
    exact hdup (hmap ▸ h4)
  have hcr := create_of_commit_fail s now pname f did ids hchecks hdoc hval hnot
  refine ⟨?_, ?_, ?_⟩
  · rw [hcr]
  · rw [hcr]
    exact resolvePatient_prescriptions s pname f
  · rw [hcr]
    exact resolvePatient_assoc s pname f

/-- Witness for the amended C8: drug id 2 listed twice in `sBase` is
rejected with a persistence error and nothing is persisted. -/
theorem claim8_witness :
    (create_prescription sBase 10 "Jane" "JS001" 1 [2, 2]).2 =
      .error .persistenceError ∧
    (create_prescription sBase 10 "Jane" "JS001" 1 [2, 2]).1.prescriptions =
      sBase.prescriptions ∧
    (create_prescription sBase 10 "Jane" "JS001" 1 [2, 2]).1.assoc = sBase.assoc :=
  claim8_duplicate_drug_rejected sBase 10 "Jane" "JS001" 1 [2, 2]
    (by decide) (by decide) (by decide) rfl (by decide) (by decide)

/-! ### Dictionary and counting lemmas for the statistics endpoint -/

theorem dictGet_dictSet_self (m : List (String × Nat)) (k : String) (v : Nat) :
    dictGet (dictSet m k v) k = some v := by
  induction m with
  | nil => simp [dictSet, dictGet]
  | cons e m ih =>
    by_cases h : e.1 = k
    · simp [dictSet, h, dictGet]
    · simp [dictSet, h, dictGet, ih]

theorem dictSet_cons_pos {e : String × Nat} {m : List (String × Nat)}
    {k : String} {v : Nat} (h : e.1 = k) :
    dictSet (e :: m) k v = (k, v) :: m := by
  simp only [dictSet]
  rw [if_pos h]

theorem dictSet_cons_neg {e : String × Nat} {m : List (String × Nat)}
    {k : String} {v : Nat} (h : ¬e.1 = k) :
    dictSet (e :: m) k v = e :: dictSet m k v := by
  simp only [dictSet]
  rw [if_neg h]

theorem dictGet_dictSet_ne (m : List (String × Nat)) (k k2 : String) (v : Nat)
    (hne : k2 ≠ k) : dictGet (dictSet m k v) k2 = dictGet m k2 := by
  induction m with
  | nil => simp [dictSet, dictGet, Ne.symm hne]
  | cons e m ih =>
    by_cases h : e.1 = k
    · rw [dictSet_cons_pos h]
      have h2 : ¬e.1 = k2 := h ▸ Ne.symm hne
      simp only [dictGet]
      rw [if_neg (Ne.symm hne), if_neg h2]
    · rw [dictSet_cons_neg h]
      by_cases h3 : e.1 = k2
      · simp only [dictGet]
        rw [if_pos h3, if_pos h3]
      · simp only [dictGet]
        rw [if_neg h3, if_neg h3, ih]

theorem mem_keys_dictSet (m : List (String × Nat)) (k k2 : String) (v : Nat) :
    k2 ∈ (dictSet m k v).map Prod.fst ↔ k2 ∈ m.map Prod.fst ∨ k2 = k := by
  induction m with
  | nil => simp [dictSet]
  | cons e m ih =>
    by_cases h : e.1 = k
    · rw [dictSet_cons_pos h]
      simp only [List.map_cons, List.mem_cons, h]
      tauto
    · rw [dictSet_cons_neg h]
      simp only [List.map_cons, List.mem_cons, ih]
      tauto

theorem keys_nodup_dictSet (m : List (String × Nat)) (k : String) (v : Nat)
    (hn : (m.map Prod.fst).Nodup) : ((dictSet m k v).map Prod.fst).Nodup := by
  induction m with
  | nil => simp [dictSet]
  | cons e m ih =>
    rw [List.map_cons, List.nodup_cons] at hn
    by_cases h : e.1 = k
    · rw [dictSet_cons_pos h]
      rw [List.map_cons, List.nodup_cons]
      exact ⟨h ▸ hn.1, hn.2⟩
    · rw [dictSet_cons_neg h]
      rw [List.map_cons, List.nodup_cons]
      refine ⟨?_, ih hn.2⟩
      intro hmem
      rcases (mem_keys_dictSet m k e.1 v).mp hmem with h1 | h2
      · exact hn.1 h1
      · exact h h2

theorem foldl_dictGet_not_mem (count : Drug → Nat) (ds : List Drug)
    (acc : List (String × Nat)) (k : String) (hk : ∀ d ∈ ds, d.name ≠ k) :
    dictGet (ds.foldl (fun m d => dictSet m d.name (count d)) acc) k =
      dictGet acc k := by
  induction ds generalizing acc with
  | nil => rfl
  | cons d ds ih =>
    rw [List.foldl_cons,
      ih _ (fun x hx => hk x (List.mem_cons_of_mem d hx))]
    exact dictGet_dictSet_ne acc d.name k (count d)
      (fun h => hk d (List.mem_cons_self d ds) h.symm)

theorem foldl_dictGet_isSome (count : Drug → Nat) (ds : List Drug)
    (acc : List (String × Nat)) (k : String)
    (hsome : (dictGet acc k).isSome) :
    (dictGet (ds.foldl (fun m d => dictSet m d.name (count d)) acc) k).isSome := by
  induction ds generalizing acc with
  | nil => exact hsome
  | cons d ds ih =>
    rw [List.foldl_cons]
    refine ih _ ?_
    by_cases h : k = d.name
    · rw [h, dictGet_dictSet_self]
      rfl
    · rw [dictGet_dictSet_ne acc d.name k (count d) h]
      exact hsome

theorem foldl_dictGet_mem (count : Drug → Nat) (ds : List Drug)
    (d : Drug) (hd : d ∈ ds) : ∀ acc : List (String × Nat),
    (dictGet (ds.foldl (fun m d2 => dictSet m d2.name (count d2)) acc)
      d.name).isSome := by
  induction ds with
  | nil => cases hd
  | cons e ds ih =>
    intro acc
    rw [List.foldl_cons]
    rcases List.mem_cons.mp hd with rfl | hmem
    · refine foldl_dictGet_isSome count ds _ d.name ?_
      rw [dictGet_dictSet_self]
      rfl
    · exact ih hmem _

theorem foldl_dictGet_nodup (count : Drug → Nat) (ds : List Drug)
    (d : Drug) (hd : d ∈ ds) (hnod : (ds.map Drug.name).Nodup) :
    ∀ acc : List (String × Nat),
    dictGet (ds.foldl (fun m d2 => dictSet m d2.name (count d2)) acc) d.name =
      some (count d) := by
  induction ds with
  | nil => cases hd
  | cons e ds ih =>
    intro acc
    rw [List.map_cons, List.nodup_cons] at hnod
    rcases List.mem_cons.mp hd with rfl | hmem
    · rw [List.foldl_cons,
        foldl_dictGet_not_mem count ds _ d.name
          (fun x hx h => hnod.1 (h ▸ List.mem_map_of_mem Drug.name hx))]
      exact dictGet_dictSet_self acc d.name (count d)
    · rw [List.foldl_cons]
      exact ih hmem hnod.2 _

theorem foldl_keys_nodup (count : Drug → Nat) (ds : List Drug)
    (acc : List (String × Nat)) (hacc : (acc.map Prod.fst).Nodup) :
    (((ds.foldl (fun m d => dictSet m d.name (count d)) acc)).map Prod.fst).Nodup := by
  induction ds generalizing acc with
  | nil => exact hacc
  | cons d ds ih =>
    rw [List.foldl_cons]
    exact ih _ (keys_nodup_dictSet acc d.name (count d) hacc)

theorem filterMap_find_pres (prescriptions : List Prescription)
    (hpn : (prescriptions.map Prescription.id).Nodup) :
    ∀ A : List (Nat × Nat), (A.map Prod.fst).Nodup →
      (A.filterMap (fun a => prescriptions.find? (fun q => q.id == a.1))).Nodup ∧
      ∀ pr, pr ∈ A.filterMap (fun a => prescriptions.find? (fun q => q.id == a.1)) ↔
        (pr ∈ prescriptions ∧ pr.id ∈ A.map Prod.fst) := by
  intro A
  induction A with
  | nil =>
    intro _
    refine ⟨List.nodup_nil, ?_⟩
    intro pr
    simp
  | cons a A ih =>
    intro hA
    rw [List.map_cons, List.nodup_cons] at hA
    obtain ⟨ihn, ihm⟩ := ih hA.2
    rw [List.filterMap_cons]
    cases hf : prescriptions.find? (fun q => q.id == a.1) with
    | none =>
      have hnone : ∀ pr ∈ prescriptions, pr.id ≠ a.1 := by
        intro pr hpr h
        exact List.find?_eq_none.mp hf pr hpr (beq_iff_eq.mpr h)
      refine ⟨ihn, ?_⟩
      intro pr
      simp only [List.map_cons, List.mem_cons]
      constructor
      · intro h
        obtain ⟨hm, ht⟩ := (ihm pr).mp h
        exact ⟨hm, Or.inr ht⟩
      · rintro ⟨hm, heq | ht⟩
        · exact absurd heq (hnone pr hm)
        · exact (ihm pr).mpr ⟨hm, ht⟩
    | some pr0 =>
      have hpr0mem : pr0 ∈ prescriptions := List.mem_of_find?_eq_some hf
      have hpr0id : pr0.id = a.1 := by
        have hb := List.find?_some hf
        exact eq_of_beq hb
      constructor
      · rw [List.nodup_cons]
        refine ⟨?_, ihn⟩
        intro hmem
        obtain ⟨_, hid⟩ := (ihm pr0).mp hmem
        exact hA.1 (hpr0id ▸ hid)
      · intro pr
        simp only [List.mem_cons, List.map_cons]
        constructor
        · rintro (rfl | h)
          · exact ⟨hpr0mem, Or.inl hpr0id⟩
          · obtain ⟨hm, ht⟩ := (ihm pr).mp h
            exact ⟨hm, Or.inr ht⟩
        · rintro ⟨hm, heq | ht⟩
          · exact Or.inl
              (key_eq_imp_eq Prescription.id hpn hm hpr0mem (by rw [heq, hpr0id]))
          · exact Or.inr ((ihm pr).mpr ⟨hm, ht⟩)

theorem mem_fst_filter_snd {l : List (Nat × Nat)} {c x : Nat} :
    x ∈ (l.filter (fun a => a.2 == c)).map Prod.fst ↔ (x, c) ∈ l := by
  constructor
  · intro h
    obtain ⟨a, ha, rfl⟩ := List.mem_map.mp h
    obtain ⟨hal, hac⟩ := List.mem_filter.mp ha
    have heq : a = (a.1, c) := Prod.ext rfl (eq_of_beq hac)
    exact heq ▸ hal
  · intro h
    refine List.mem_map.mpr ⟨(x, c), ?_, rfl⟩
    exact List.mem_filter.mpr ⟨h, beq_self_eq_true c⟩

/-- C6: `get_drug_prescription_statistics` has an entry for every drug in
the catalog keyed by its name (count 0 when no prescription references
it); when names are pairwise distinct each drug's entry is exactly its
reference count; keys are unique in the result, so two drugs sharing a
name collapse to one entry (they overwrite one another); and in a
well-formed state the counted quantity is the number of DISTINCT
prescriptions referencing the drug through the association table. -/
theorem claim6_drug_statistics (s : DBState) :
    (∀ d ∈ s.drugs, ∃ n,
      dictGet (get_drug_prescription_statistics s) d.name = some n) ∧
    ((s.drugs.map Drug.name).Nodup →
      ∀ d ∈ s.drugs, dictGet (get_drug_prescription_statistics s) d.name =
        some (drugPrescriptionCount s d)) ∧
    ((get_drug_prescription_statistics s).map Prod.fst).Nodup ∧
    (WF s → ∀ d ∈ s.drugs, ∃ prs : List Prescription,
      drugPrescriptionCount s d = prs.length ∧ prs.Nodup ∧
      ∀ pr, pr ∈ prs ↔ (pr ∈ s.prescriptions ∧ (pr.id, d.id) ∈ s.assoc)) := by
  refine ⟨?_, ?_, ?_, ?_⟩
  · intro d hd
    exact Option.isSome_iff_exists.mp
      (foldl_dictGet_mem (fun d2 => drugPrescriptionCount s d2) s.drugs d hd [])
  · intro hnod d hd
    exact foldl_dictGet_nodup (fun d2 => drugPrescriptionCount s d2)
      s.drugs d hd hnod []
  · exact foldl_keys_nodup (fun d2 => drugPrescriptionCount s d2)
      s.drugs [] List.nodup_nil
  · intro hwf d hd
    have hA : ((s.assoc.filter (fun a => a.2 == d.id)).map Prod.fst).Nodup := by
      refine @nodup_fst_of_nodup_const_snd _ d.id (hwf.assoc_nodup.filter _) ?_
      intro a ha
      exact eq_of_beq (List.mem_filter.mp ha).2
    obtain ⟨hnodup, hiff⟩ := filterMap_find_pres s.prescriptions hwf.pres_nodup _ hA
    refine ⟨_, rfl, hnodup, ?_⟩
    intro pr
    rw [hiff pr, mem_fst_filter_snd]

/-- Witness for C6: after P1 = drugs [1, 2] and P2 = drugs [1] in an
otherwise empty state, Amoxicillin maps to 2, Panadol to 1, and the
uncited Lisinopril to 0. -/
theorem claim6_witness :
    dictGet (get_drug_prescription_statistics sP2) "Amoxicillin" = some 2 ∧
    dictGet (get_drug_prescription_statistics sP2) "Panadol" = some 1 ∧
    dictGet (get_drug_prescription_statistics sP2) "Lisinopril" = some 0 := by
  have h := (claim6_drug_statistics sP2).2.1 (by decide)
  refine ⟨?_, ?_, ?_⟩
  · exact (h ⟨1, "Amoxicillin", "250mg", "Take 1 every 8 hours",
      "Allergic reactions possible"⟩ (by decide)).trans (by decide)
  · exact (h ⟨2, "Panadol", "500mg", "2 tablets every 4-6 hours",
      "Max 8 tablets a day"⟩ (by decide)).trans (by decide)
  · exact (h ⟨3, "Lisinopril", "10mg", "1 tablet daily",
      "Monitor blood pressure"⟩ (by decide)).trans (by decide)

end RxQue
